import Mathlib

/-
  Verification of the quant-trader decision engine.

  Shallow embedding of the repository's decision-engine core:
  * the indicator library (src/unnamed/part_002, `utilities/calculations.js`);
  * the position-ledger reconstruction
    (src/unnamed/part_000, `getHoldingDetailsFromInfluxDB`);
  * the rule evaluator and loop of the `tradebot.js` application variant
    (namespace VariantA), and of the second application variant that carries
    the cooldown gate (src/unnamed/part_005, namespace VariantB);
  * the simulation venue client (src/CdpClientMock.js).

  Numbers are modelled as exact rationals (JS numeric doubles are replaced by
  ℚ; `Math.sqrt` forces ℝ where a standard deviation is produced).  Exceptions
  thrown by JS code are modelled with `Except String`.
-/

namespace QuantTrader

/-! ## JavaScript primitives used by the source -/

/-- Model of `array.slice(-n)`: the last `n` elements.  JS `slice(-0)` is
`slice(0)`, the whole array, so `n = 0` returns the list unchanged. -/
def jsSliceLast (l : List α) (n : ℕ) : List α :=
  if n = 0 then l else l.drop (l.length - n)

/-- Model of `Number.prototype.toFixed(digits)` on a nonnegative value, as
consumed numerically downstream: the value rounded to `digits` decimal places
(ties round away from zero, which for nonnegative inputs is `round`). -/
def jsToFixed (x : ℚ) (digits : ℕ) : ℚ :=
  (round (x * 10 ^ digits) : ℤ) / 10 ^ digits

/-- Whether the character list `small` occurs as a prefix of `big`. -/
def listStartsWith : List Char → List Char → Bool
  | _, [] => true
  | [], _ :: _ => false
  | b :: bs, a :: as => (a == b) && listStartsWith bs as

/-- Whether `small` occurs contiguously inside `big`. -/
def containsSub : List Char → List Char → Bool
  | [], small => small.isEmpty
  | b :: bs, small => listStartsWith (b :: bs) small || containsSub bs small

/-- Model of JS `s.includes(sub)`. -/
def jsIncludes (s sub : String) : Bool :=
  containsSub s.toList sub.toList

/-! ## Indicator library (src/unnamed/part_002) -/

/-- `calculateSMA(prices, period)`: `null` when `prices.length < period`, else
the arithmetic mean of the trailing `period` prices. -/
def calculateSMA (prices : List ℚ) (period : ℕ) : Option ℚ :=
  if prices.length < period then none
  else some ((jsSliceLast prices period).sum / period)

/-- `calculateStandardDeviation(prices, period)`: the population standard
deviation (variance divides by `period`) of the trailing `period` prices,
with the mean taken by `calculateSMA` over the same window.  `Math.sqrt`
forces the result into ℝ. -/
noncomputable def calculateStandardDeviation (prices : List ℚ) (period : ℕ) :
    Option ℝ :=
  if prices.length < period then none
  else
    match calculateSMA (jsSliceLast prices period) period with
    | none => none
    | some mean =>
      some (Real.sqrt
        ((((jsSliceLast prices period).map (fun price => (price - mean) ^ 2)).sum
          / period : ℚ)))

/-- The object returned by `calculateBollingerBands`: each band may be `null`. -/
structure BollingerBands where
  middleBand : Option ℚ
  upperBand : Option ℝ
  lowerBand : Option ℝ

/-- `calculateBollingerBands(prices, period, stdDevMultiplier)`: `null` when the
series is too short; else middle = SMA, and when the standard deviation is
available, upper/lower = middle ± stdDev·multiplier. -/
noncomputable def calculateBollingerBands (prices : List ℚ) (period : ℕ)
    (stdDevMultiplier : ℚ) : Option BollingerBands :=
  if prices.length < period then none
  else
    match calculateSMA prices period with
    | none => some ⟨none, none, none⟩
    | some middleBand =>
      match calculateStandardDeviation prices period with
      | none => some ⟨some middleBand, none, none⟩
      | some stdDev =>
        some ⟨some middleBand,
              some ((middleBand : ℝ) + stdDev * (stdDevMultiplier : ℝ)),
              some ((middleBand : ℝ) - stdDev * (stdDevMultiplier : ℝ))⟩

/-- `calculateROC(prices, rocPeriod)`: `null` when fewer than `rocPeriod + 1`
prices or the past price is zero; else percentage change from the price
`rocPeriod` positions before the end to the last price.  (The JS `null`
checks on individual elements have no counterpart in the ℚ model.) -/
def calculateROC (prices : List ℚ) (rocPeriod : ℕ) : Option ℚ :=
  if prices.length < rocPeriod + 1 then none
  else
    let currentPrice := prices.getD (prices.length - 1) 0
    let pastPrice := prices.getD (prices.length - 1 - rocPeriod) 0
    if pastPrice = 0 then none
    else some ((currentPrice - pastPrice) / pastPrice * 100)

/-! ## Position Ledger (src/unnamed/part_000, `getHoldingDetailsFromInfluxDB`) -/

/-- A row of the trade-event store as consumed by the accumulation loop
(the parsed `event_type`, `quantity` and `usdAmount` fields; timestamps are
elided, the input list is taken in the query's chronological order). -/
structure TradeRow where
  event_type : String
  quantity : ℚ
  usdAmount : ℚ
deriving DecidableEq

/-- The loop's running totals (`totalQuantity`, `totalCost`). -/
structure LedgerAcc where
  totalQuantity : ℚ
  totalCost : ℚ
deriving DecidableEq

/-- One iteration of the accumulation loop of `getHoldingDetailsFromInfluxDB`:
BUY-kind events add quantity and cost; SELL-kind events remove quantity at the
average unit cost, clamping both totals at 0. -/
def processTradeRow (acc : LedgerAcc) (row : TradeRow) : LedgerAcc :=
  if jsIncludes row.event_type "BUY" then
    ⟨acc.totalQuantity + row.quantity, acc.totalCost + row.usdAmount⟩
  else if jsIncludes row.event_type "SELL" then
    if 0 < acc.totalQuantity then
      let avgCostPerUnit := acc.totalCost / acc.totalQuantity
      let q := acc.totalQuantity - row.quantity
      let c := acc.totalCost - row.quantity * avgCostPerUnit
      ⟨if q < 0 then 0 else q, if c < 0 then 0 else c⟩
    else acc
  else acc

/-- The accumulation loop run from zero totals over an ordered row sequence. -/
def ledgerFromRows (rows : List TradeRow) : LedgerAcc :=
  rows.foldl processTradeRow ⟨0, 0⟩

/-- The flux query's event-type filter: only `MANUAL_BUY_EXECUTION` and
`BUY_EXECUTION` rows are returned to the loop. -/
def holdingQueryFilter (history : List TradeRow) : List TradeRow :=
  history.filter
    (fun r => r.event_type == "MANUAL_BUY_EXECUTION" || r.event_type == "BUY_EXECUTION")

/-- The returned holding: weighted-average `purchasePrice` and net `quantity`. -/
structure HoldingDetails where
  purchasePrice : ℚ
  quantity : ℚ
deriving DecidableEq

/-- The function's output gate: a holding only when `totalQuantity > 0` and
`totalCost >= 0`, with `purchasePrice = totalCost / totalQuantity`. -/
def ledgerHoldingOfAcc (acc : LedgerAcc) : Option HoldingDetails :=
  if 0 < acc.totalQuantity ∧ 0 ≤ acc.totalCost then
    some ⟨acc.totalCost / acc.totalQuantity, acc.totalQuantity⟩
  else none

/-- `getHoldingDetailsFromInfluxDB(ticker)` on the stored event history of one
ticker: the flux query filters the rows, the loop accumulates, the gate
decides whether a holding is reported. -/
def getHoldingDetailsFromInfluxDB (history : List TradeRow) :
    Option HoldingDetails :=
  ledgerHoldingOfAcc (ledgerFromRows (holdingQueryFilter history))

/-! ## Simulation venue client (src/CdpClientMock.js) -/

/-- The object `placeMarketOrder` resolves to. -/
structure OrderResult where
  success : Bool
  message : String
deriving DecidableEq

namespace CdpClientMock

/-- `CdpClientMock.placeMarketOrder(ticker, side, quantity)`: a total function
(the JS body only logs and resolves), always `{success: true, ...}`. -/
def placeMarketOrder (_ticker _side : String) (_quantity : ℚ) : OrderResult :=
  ⟨true, "Simulated order placed."⟩

end CdpClientMock

/-- The orchestrator's acceptance test on an order result:
`orderResult && orderResult.success !== false` (with the result present). -/
def orderResultAccepted (r : OrderResult) : Bool :=
  !(r.success == false)

/-! ## Rule descriptors (config.json `buy_rules` / `sell_rules`) -/

/-- The named numeric parameters a rule of any supported type may carry
(`rule.params` in the config; a field unused by a rule's type is ignored). -/
structure RuleParams where
  sma_days : ℕ
  percentage_below_sma : ℚ
  percentage_above_purchase : ℚ
  percentage_below_purchase : ℚ
  period : ℕ
  std_dev_multiplier : ℚ
  roc_period : ℕ
  dip_percentage_trigger : ℚ
  spike_percentage_trigger : ℚ
deriving DecidableEq

/-- A configured rule: the `type` tag is an open string, dispatched on at
evaluation time. -/
structure Rule where
  id : String
  type : String
  params : RuleParams
deriving DecidableEq

/-! ## Rule evaluator, `tradebot.js` variant -/

/-- The holding snapshot `tradebot.js` passes to sell rules
(`{purchasePrice, quantity}`); `none` models the defaulted empty object,
whose `purchasePrice` fails the `typeof ... !== 'number'` guard. -/
structure HoldingA where
  purchasePrice : ℚ
  quantity : ℚ
deriving DecidableEq

namespace VariantA

/-- `evaluateRuleCondition(rule, currentPrice, historicalPrices, holdingDetails)`
of `tradebot.js`.  A thrown JS exception is modelled as `Except.error`: the
`bollinger_lower_band_cross` branch executes
`console.log("BB lower: " + bbLower.lowerBand)` before its null guard, so a
`null` result from `calculateBollingerBands` throws a TypeError there. -/
noncomputable def evaluateRuleCondition (rule : Rule) (currentPrice : ℚ)
    (historicalPrices : List ℚ) (holdingDetails : Option HoldingA) :
    Except String Bool :=
  let params := rule.params
  let hPrices := historicalPrices
  match rule.type with
  | "sma_dip_percentage" =>
    match calculateSMA hPrices params.sma_days with
    | none => .ok false
    | some sma =>
      .ok (decide (currentPrice ≤ sma * (1 - params.percentage_below_sma / 100)))
  | "profit_percentage_target" =>
    match holdingDetails with
    | none => .ok false
    | some h =>
      .ok (decide
        (currentPrice ≥ h.purchasePrice * (1 + params.percentage_above_purchase / 100)))
  | "stop_loss_percentage" =>
    match holdingDetails with
    | none => .ok false
    | some h =>
      .ok (decide
        (currentPrice ≤ h.purchasePrice * (1 - params.percentage_below_purchase / 100)))
  | "bollinger_lower_band_cross" =>
    match calculateBollingerBands hPrices params.period params.std_dev_multiplier with
    | none => .error "TypeError: cannot read lowerBand of null"
    | some bb =>
      match bb.lowerBand with
      | none => .ok false
      | some lb => .ok (decide ((currentPrice : ℝ) ≤ lb))
  | "bollinger_upper_band_cross" =>
    match calculateBollingerBands hPrices params.period params.std_dev_multiplier with
    | none => .ok false
    | some bb =>
      match bb.upperBand with
      | none => .ok false
      | some ub => .ok (decide ((currentPrice : ℝ) ≥ ub))
  | "bollinger_middle_band_cross" =>
    match calculateBollingerBands hPrices params.period params.std_dev_multiplier with
    | none => .ok false
    | some bb =>
      match bb.middleBand with
      | none => .ok false
      | some mb => .ok (decide (currentPrice ≥ mb))
  | "roc_dip" =>
    if hPrices.length < params.roc_period then .ok false
    else
      match calculateROC (jsSliceLast hPrices params.roc_period ++ [currentPrice])
          params.roc_period with
      | none => .ok false
      | some roc => .ok (decide (roc ≤ params.dip_percentage_trigger))
  | "roc_spike" =>
    match holdingDetails with
    | none => .ok false
    | some h =>
      if hPrices.length < params.roc_period then .ok false
      else
        match calculateROC (jsSliceLast hPrices params.roc_period ++ [currentPrice])
            params.roc_period with
        | none => .ok false
        | some roc =>
          .ok (decide (roc ≥ params.spike_percentage_trigger ∧
                       currentPrice > h.purchasePrice))
  | _ => .ok false

end VariantA

/-! ## Second application variant (src/unnamed/part_005): evaluator, cooldown
    gate and engine cycle -/

/-- A portfolio position as parsed by `parsePortfolioAssets`:
`{asset, quantity, average_usd_price}`. -/
structure Asset where
  asset : String
  quantity : ℚ
  average_usd_price : ℚ
deriving DecidableEq

namespace VariantB

/-- `evaluateRuleCondition(ticker, rule, currentPrice, historicalPrices,
holdingDetails)` of the part_005 variant.  Differences from `tradebot.js`:
`sma_dip_percentage` uses the window `sma_days * 1440`, sell rules read
`average_usd_price`, and only six rule types are dispatched.  Its
`bollinger_lower_band_cross` branch has the same unguarded debug log and so
also throws on a `null` band object. -/
noncomputable def evaluateRuleCondition (ticker : String) (rule : Rule)
    (currentPrice : ℚ) (historicalPrices : List ℚ)
    (holdingDetails : Option Asset) : Except String Bool :=
  let params := rule.params
  let hPrices := historicalPrices
  let _ := ticker
  match rule.type with
  | "sma_dip_percentage" =>
    match calculateSMA hPrices (params.sma_days * 1440) with
    | none => .ok false
    | some sma =>
      .ok (decide (currentPrice ≤ sma * (1 - params.percentage_below_sma / 100)))
  | "bollinger_lower_band_cross" =>
    match calculateBollingerBands hPrices params.period params.std_dev_multiplier with
    | none => .error "TypeError: cannot read lowerBand of null"
    | some bb =>
      match bb.lowerBand with
      | none => .ok false
      | some lb => .ok (decide ((currentPrice : ℝ) ≤ lb))
  | "roc_dip" =>
    if hPrices.length < params.roc_period then .ok false
    else
      match calculateROC (jsSliceLast hPrices params.roc_period ++ [currentPrice])
          params.roc_period with
      | none => .ok false
      | some roc => .ok (decide (roc ≤ params.dip_percentage_trigger))
  | "profit_percentage_target" =>
    match holdingDetails with
    | none => .ok false
    | some h =>
      .ok (decide (currentPrice ≥
        h.average_usd_price * (1 + params.percentage_above_purchase / 100)))
  | "bollinger_upper_band_cross" =>
    match calculateBollingerBands hPrices params.period params.std_dev_multiplier with
    | none => .ok false
    | some bb =>
      match bb.upperBand with
      | none => .ok false
      | some ub => .ok (decide ((currentPrice : ℝ) ≥ ub))
  | "roc_spike" =>
    match holdingDetails with
    | none => .ok false
    | some h =>
      if hPrices.length < params.roc_period then .ok false
      else
        match calculateROC (jsSliceLast hPrices params.roc_period ++ [currentPrice])
            params.roc_period with
        | none => .ok false
        | some roc =>
          .ok (decide (roc ≥ params.spike_percentage_trigger ∧
                       currentPrice > h.average_usd_price))
  | _ => .ok false

/-- `isCooldown(cooldownMinutes, lastTradeTimestamp, mainLoopPeriod)`: true
while `now - lastTradeTimestamp < cooldownMinutes * 60 * 1000`.  The JS
function reads `Date.now()` itself; the model passes the cycle's `now`
explicitly (the third JS parameter is unused by the body, as in the source). -/
def isCooldown (cooldownMinutes lastTradeTimestamp _mainLoopPeriod now : ℚ) :
    Bool :=
  decide (now - lastTradeTimestamp < cooldownMinutes * 60 * 1000)

/-- An order submission to the venue client. -/
structure Order where
  ticker : String
  side : String
  quantity : ℚ
  limitPrice : ℚ
deriving DecidableEq

/-- Observation of one per-ticker rule loop: the rule ids evaluated in order,
the orders submitted, the next index into the venue's response sequence, and
whether an accepted trade armed the cooldown timestamp. -/
structure RuleLoopResult where
  evaluated : List String
  submitted : List Order
  nextIndex : ℕ
  traded : Bool
deriving DecidableEq

/-- The per-ticker rule loop shared by the buy and sell passes: rules are
taken in configured order; a firing rule submits `order`; an accepted order
breaks the loop, a rejected or throwing submission falls through to the next
rule; a throwing rule evaluation propagates. -/
def runRuleLoop (evalRule : Rule → Except String Bool) (order : Order)
    (venue : ℕ → Bool) : List Rule → ℕ → Except String RuleLoopResult
  | [], n => .ok ⟨[], [], n, false⟩
  | rule :: rest, n =>
    match evalRule rule with
    | .error e => .error e
    | .ok false =>
      match runRuleLoop evalRule order venue rest n with
      | .error e => .error e
      | .ok r => .ok ⟨rule.id :: r.evaluated, r.submitted, r.nextIndex, r.traded⟩
    | .ok true =>
      if venue n then .ok ⟨[rule.id], [order], n + 1, true⟩
      else
        match runRuleLoop evalRule order venue rest (n + 1) with
        | .error e => .error e
        | .ok r =>
          .ok ⟨rule.id :: r.evaluated, order :: r.submitted, r.nextIndex, r.traded⟩

/-- The configuration snapshot the cycle consumes. -/
structure Config where
  tickers_to_watch : List String
  trade_allocation_usd : ℚ
  buy_rules : List Rule
  sell_rules : List Rule
  trade_cooldown_minutes : ℚ
  main_loop_minutes : ℚ

/-- The cycle's external world: latest prices, historical price windows by
(ticker, range), the cycle's `Date.now()`, and the venue's response to the
k-th order submission of the cycle.  `marketPrices` models the
`currentMarketPrices` map after the refresh step, which populates exactly
the watched tickers; the function is total in the model, and every theorem
below consumes a price only at a watched ticker — for an unwatched holding
the source computes `parseFloat(undefined)`, i.e. NaN, on which no sell
rule fires, a path outside the rational embedding. -/
structure Env where
  marketPrices : String → ℚ
  historicalPrices : String → String → List ℚ
  now : ℚ
  venueAccepts : ℕ → Bool

/-- The engine's mutable state entering a cycle. -/
structure EngineState where
  currentHoldings : List Asset
  lastTradeTimestamp : ℚ

/-- The buy pass of `runITTTEngine` (part_005): per watched ticker, first the
cooldown gate (on `true` the function returns, ending the whole cycle — the
`Bool` in the result records this), then the funds check, the 20-point
history check, and the buy-rule loop; an accepted buy sets the trade
timestamp to `now`.  Missing prices are outside the model: the source's
`currentPrice === null` guard is dead (`parseFloat` never returns `null`),
so `marketPrices` is total. -/
noncomputable def runBuyPass (cfg : Config) (env : Env) (usdBalance : ℚ) :
    List String → ℚ → ℕ → Except String (List Order × ℚ × ℕ × Bool)
  | [], last, n => .ok ([], last, n, false)
  | ticker :: rest, last, n =>
    if isCooldown cfg.trade_cooldown_minutes last cfg.main_loop_minutes env.now then
      .ok ([], last, n, true)
    else
      let currentPrice := env.marketPrices ticker
      if cfg.trade_allocation_usd ≤ usdBalance then
        let historicalPrices := env.historicalPrices ticker "-73h"
        if historicalPrices.length < 20 then runBuyPass cfg env usdBalance rest last n
        else
          let quantityToBuy := cfg.trade_allocation_usd / currentPrice
          let adjustedQuantity :=
            jsToFixed quantityToBuy (if ticker = "XRP-USD" then 6 else 8)
          let order : Order := ⟨ticker, "BUY", adjustedQuantity, currentPrice⟩
          match runRuleLoop
              (fun rule => evaluateRuleCondition ticker rule currentPrice
                historicalPrices none)
              order env.venueAccepts cfg.buy_rules n with
          | .error e => .error e
          | .ok r =>
            let last' := if r.traded then env.now else last
            match runBuyPass cfg env usdBalance rest last' r.nextIndex with
            | .error e => .error e
            | .ok (os, l, n2, stopped) => .ok (r.submitted ++ os, l, n2, stopped)
      else runBuyPass cfg env usdBalance rest last n

/-- The sell pass of `runITTTEngine` (part_005): per held asset (skipping
USD), the 20-point history check and the sell-rule loop over the full held
quantity; an accepted sell sets the trade timestamp.  No cooldown gate
appears in this pass.  The price read is meaningful only when the asset's
ticker is watched (see `Env.marketPrices`): the source's refresh populates
prices for watched tickers only, and for an unwatched holding the NaN it
reads lets no rule fire — the theorems below apply this pass only to
watched holdings. -/
noncomputable def runSellPass (cfg : Config) (env : Env) :
    List Asset → ℚ → ℕ → Except String (List Order × ℚ × ℕ)
  | [], last, n => .ok ([], last, n)
  | asset :: rest, last, n =>
    if asset.asset = "USD" then runSellPass cfg env rest last n
    else
      let ticker := asset.asset ++ "-USD"
      let currentPrice := env.marketPrices ticker
      if 0 < asset.quantity then
        let historicalPrices := env.historicalPrices ticker "-25h"
        if historicalPrices.length < 20 then runSellPass cfg env rest last n
        else
          let order : Order := ⟨ticker, "SELL", asset.quantity, currentPrice⟩
          match runRuleLoop
              (fun rule => evaluateRuleCondition ticker rule currentPrice
                historicalPrices (some asset))
              order env.venueAccepts cfg.sell_rules n with
          | .error e => .error e
          | .ok r =>
            let last' := if r.traded then env.now else last
            match runSellPass cfg env rest last' r.nextIndex with
            | .error e => .error e
            | .ok (os, l, n2) => .ok (r.submitted ++ os, l, n2)
      else runSellPass cfg env rest last n

/-- One cycle of `runITTTEngine` (part_005): USD balance from the holdings
snapshot, then the buy pass over the watchlist (whose cooldown gate, when it
fires, returns from the function and skips the sell pass), then the sell
pass over current holdings.  Returns the submitted orders in order and the
final `lastTradeTimestamp`. -/
noncomputable def runCycle (cfg : Config) (env : Env) (st : EngineState) :
    Except String (List Order × ℚ) :=
  let usdBalance :=
    ((st.currentHoldings.find? (fun b => b.asset == "USD")).map Asset.quantity).getD 0
  match runBuyPass cfg env usdBalance cfg.tickers_to_watch st.lastTradeTimestamp 0 with
  | .error e => .error e
  | .ok (buyOrders, last1, n1, stopped) =>
    if stopped then .ok (buyOrders, last1)
    else
      match runSellPass cfg env st.currentHoldings last1 n1 with
      | .error e => .error e
      | .ok (sellOrders, last2, _) => .ok (buyOrders ++ sellOrders, last2)

end VariantB

/-! ## Spec-side definitions (written from the specification's words, for
    comparison against the source embeddings) -/

/-- Arithmetic mean of a list, as the spec words it. -/
def listMean (l : List ℚ) : ℚ := l.sum / l.length

/-- Population variance as the spec words it: sum of squared deviations from
the mean, divided by the number of elements (not one less). -/
def populationVariance (l : List ℚ) : ℚ :=
  (l.map (fun x => (x - listMean l) ^ 2)).sum / l.length

/-- First-match rule semantics as the spec words it: rules in configured
order, the first firing rule wins and submits one order, later rules are not
evaluated; returns (evaluated rule ids, submitted orders). -/
def firstMatchSpec (fires : Rule → Bool) (order : VariantB.Order) :
    List Rule → List String × List VariantB.Order
  | [] => ([], [])
  | r :: rest =>
    if fires r then ([r.id], [order])
    else
      let p := firstMatchSpec fires order rest
      (r.id :: p.1, p.2)

/-! ## Concrete scenario data used by counterexamples and witnesses -/

/-- All-zero rule parameters, overridden per scenario. -/
def zeroParams : RuleParams := ⟨0, 0, 0, 0, 0, 0, 0, 0, 0⟩

/-- A 20-period, 2-sigma lower-Bollinger buy rule. -/
def bbLowerRule : Rule :=
  ⟨"buy_on_lower_bb_cross_20_2", "bollinger_lower_band_cross",
   ⟨0, 0, 0, 0, 20, 2, 0, 0, 0⟩⟩

/-- A rule whose type tag is in no dispatch table. -/
def unknownRule : Rule := ⟨"mystery", "galactic_alignment", zeroParams⟩

/-- A 5-percent profit-target sell rule (the config.json example). -/
def profitRule5 : Rule :=
  ⟨"sell_on_5pct_profit", "profit_percentage_target",
   ⟨0, 0, 5, 0, 0, 0, 0, 0, 0⟩⟩

/-- A 1-percent profit-target sell rule. -/
def profitRule1 : Rule :=
  ⟨"sell_on_1pct_profit", "profit_percentage_target",
   ⟨0, 0, 1, 0, 0, 0, 0, 0, 0⟩⟩

/-- The C4 event history: a buy of 1 unit for 100 USD, then a sell of half a
unit (at the 110 price the bot would log 55 USD proceeds). -/
def c4History : List TradeRow :=
  [⟨"BUY_EXECUTION", 1, 100⟩, ⟨"SELL_EXECUTION", 1 / 2, 55⟩]

/-- One held ETH position: quantity 1, average entry price 100 USD. -/
def ethAsset : Asset := ⟨"ETH", 1, 100⟩

/-- Twenty price points, flat at 100. -/
def history20 : List ℚ :=
  [100, 100, 100, 100, 100, 100, 100, 100, 100, 100,
   100, 100, 100, 100, 100, 100, 100, 100, 100, 100]

/-- One held SOL position: quantity 1, average entry price 10 USD. -/
def solAsset : Asset := ⟨"SOL", 1, 10⟩

/-- Cooldown witness environment: the watched ticker quotes 110, 20 points of
flat history, the venue accepts everything. -/
def c1Env : VariantB.Env :=
  ⟨fun _ => 110, fun _ _ => history20, 1000001, fun _ => true⟩

/-- Cooldown witness config: one watched ticker, the example sell rule, a
60-minute cooldown. -/
def c1wConfig : VariantB.Config := ⟨["ETH-USD"], 10, [], [profitRule5], 60, 1⟩

/-- Mid-cycle cooldown scenario config: ETH-USD and SOL-USD both watched, no
buy rules, the example sell rule, a 60-minute cooldown. -/
def cxConfig : VariantB.Config :=
  ⟨["ETH-USD", "SOL-USD"], 10, [], [profitRule5], 60, 1⟩

/-- Mid-cycle cooldown scenario environment: both watched tickers quote 110,
20 points of flat history, the venue accepts everything.  Only watched
tickers' prices are consumed. -/
def cxEnv : VariantB.Env :=
  ⟨fun _ => 110, fun _ _ => history20, 10000000000, fun _ => true⟩

/-- Mid-cycle cooldown scenario state: the ETH and SOL positions (both
watched), last trade long elapsed. -/
def cxState : VariantB.EngineState := ⟨[ethAsset, solAsset], 0⟩

/-- The sell order used by the C3 scenarios. -/
def c3Order : VariantB.Order := ⟨"ETH-USD", "SELL", 1, 110⟩

/-- A venue that rejects the first submission of the cycle and accepts later
ones. -/
def c3Venue : ℕ → Bool := fun n => n != 0

/-- A rate-of-change dip buy rule firing on any flat history (lookback 1,
trigger 0). -/
def rocBuyRule : Rule := ⟨"roc_dip_buy", "roc_dip", ⟨0, 0, 0, 0, 0, 0, 1, 0, 0⟩⟩

/-- Sizing scenario config: one watched ticker, 10 USD per trade, the ROC buy
rule, a 60-minute cooldown. -/
def c7Config : VariantB.Config := ⟨["BTC-USD"], 10, [rocBuyRule], [], 60, 1⟩

/-- A 1000 USD cash balance. -/
def usdAsset : Asset := ⟨"USD", 1000, 0⟩

/-- Sizing scenario state: only cash, last trade at epoch. -/
def c7State : VariantB.EngineState := ⟨[usdAsset], 0⟩

/-- Twenty price points, flat at 90. -/
def history20at90 : List ℚ :=
  [90, 90, 90, 90, 90, 90, 90, 90, 90, 90,
   90, 90, 90, 90, 90, 90, 90, 90, 90, 90]

/-- Sizing scenario environment: price 90 everywhere, cooldown long elapsed,
venue accepts everything. -/
def c7Env : VariantB.Env :=
  ⟨fun _ => 90, fun _ _ => history20at90, 10000000000, fun _ => true⟩

/-- The buy order the sizing scenario submits: 10 / 90 rounded to 8 decimal
places. -/
def c7Order : VariantB.Order := ⟨"BTC-USD", "BUY", 11111111 / 100000000, 90⟩

/-- Cooldown witness state: the ETH position, last trade 1 ms before `now`. -/
def c1State : VariantB.EngineState := ⟨[ethAsset], 1000000⟩

/-! ## C10 — the simulation venue accepts every order -/

/-- C10: in simulation mode `CdpClientMock.placeMarketOrder` resolves to
`{success: true}` for every ticker, side and quantity (it is a total
function of its inputs, so it never rejects), and the orchestrator's check
`orderResult && orderResult.success !== false` therefore always passes. -/
theorem placeMarketOrder_mock_always_succeeds :
    ∀ (ticker side : String) (quantity : ℚ),
      (CdpClientMock.placeMarketOrder ticker side quantity).success = true ∧
      orderResultAccepted (CdpClientMock.placeMarketOrder ticker side quantity)
        = true :=
  fun _ _ _ => ⟨rfl, rfl⟩

/-! ## C2 — the evaluator's inert cases, and the branch that throws -/

/-- C2: the claim says `evaluateRuleCondition` always returns a boolean and
never raises, with unknown types, sell rules without a holding, and short
histories yielding false.  The last part fails: for
`bollinger_lower_band_cross` with history shorter than the period, the
unguarded debug log dereferences the `null` band object and the evaluator
throws a TypeError (first conjunct); unknown rule types and sell rules
without a holding do return false (remaining conjuncts). -/
theorem evaluateRuleCondition_inert_cases_and_lower_bb_throw :
    VariantA.evaluateRuleCondition bbLowerRule 100 [] none
        = .error "TypeError: cannot read lowerBand of null" ∧
    VariantA.evaluateRuleCondition unknownRule 100 [] none = .ok false ∧
    VariantA.evaluateRuleCondition profitRule5 100 (List.replicate 20 100) none
        = .ok false :=
  ⟨rfl, rfl, rfl⟩

/-! ## C4 — the partial-sell example against the stored-history reconstruction -/

/-- C4: the claim (and the ledger loop's own SELL branch) expects the history
BUY 1 @ 100 USD then SELL 0.5 to reconstruct as quantity 0.5 at average cost
100 — and indeed the accumulation loop run on both rows produces totals
(0.5, 50), i.e. a 0.5-unit holding at average cost 100 (second and third
conjuncts).  But the flux query's event-type filter drops the SELL row, so
`getHoldingDetailsFromInfluxDB` actually returns quantity 1 at average cost
100 (first conjunct), contradicting the claim and the function's own
documentation. -/
theorem ledger_partial_sell_filtered_out :
    getHoldingDetailsFromInfluxDB c4History = some ⟨100, 1⟩ ∧
    ledgerFromRows c4History = ⟨1 / 2, 50⟩ ∧
    ledgerHoldingOfAcc (ledgerFromRows c4History) = some ⟨100, 1 / 2⟩ := by
  have hb : jsIncludes "BUY_EXECUTION" "BUY" = true := by decide
  have hs1 : jsIncludes "SELL_EXECUTION" "BUY" = false := by decide
  have hs2 : jsIncludes "SELL_EXECUTION" "SELL" = true := by decide
  have he1 : ("SELL_EXECUTION" == "MANUAL_BUY_EXECUTION") = false := by decide
  have he2 : ("SELL_EXECUTION" == "BUY_EXECUTION") = false := by decide
  have he3 : ("BUY_EXECUTION" == "MANUAL_BUY_EXECUTION") = false := by decide
  have he4 : ("BUY_EXECUTION" == "BUY_EXECUTION") = true := by decide
  refine ⟨?_, ?_, ?_⟩ <;>
    norm_num [getHoldingDetailsFromInfluxDB, holdingQueryFilter, ledgerFromRows,
      ledgerHoldingOfAcc, processTradeRow, c4History, hb, hs1, hs2, he1, he2, he3, he4]

/-! ## C5 — the query filter admits only buy events -/

/-- Over rows whose event types all contain "BUY", the loop only accumulates:
the final quantity is the starting quantity plus the sum of the rows'
quantities. -/
theorem foldl_buyRows_totalQuantity (rows : List TradeRow)
    (h : ∀ r ∈ rows, jsIncludes r.event_type "BUY" = true) (acc : LedgerAcc) :
    (rows.foldl processTradeRow acc).totalQuantity
      = acc.totalQuantity + (rows.map TradeRow.quantity).sum := by
  induction rows generalizing acc with
  | nil => simp
  | cons r rs ih =>
    have hr : jsIncludes r.event_type "BUY" = true := h r (by simp)
    have hrs : ∀ x ∈ rs, jsIncludes x.event_type "BUY" = true :=
      fun x hx => h x (by simp [hx])
    simp only [List.foldl_cons, List.map_cons, List.sum_cons]
    rw [ih hrs]
    simp only [processTradeRow, hr, if_true]
    ring

/-- C5: the flux query behind the ledger reconstruction filters to the event
types `MANUAL_BUY_EXECUTION` and `BUY_EXECUTION` only (first conjunct), so
the loop's SELL branch never runs on a returned row: the accumulated
quantity is exactly the sum of the returned buy quantities (second
conjunct), and appending a recorded SELL event to the stored history leaves
the reconstruction unchanged (third conjunct). -/
theorem holding_query_admits_only_buys (history : List TradeRow) :
    (∀ r ∈ holdingQueryFilter history,
        r.event_type = "MANUAL_BUY_EXECUTION" ∨ r.event_type = "BUY_EXECUTION") ∧
    (ledgerFromRows (holdingQueryFilter history)).totalQuantity
        = ((holdingQueryFilter history).map TradeRow.quantity).sum ∧
    (∀ r : TradeRow,
        r.event_type = "SELL_EXECUTION" ∨ r.event_type = "SELL_SIMULATION" →
        getHoldingDetailsFromInfluxDB (history ++ [r])
          = getHoldingDetailsFromInfluxDB history) := by
  have hmem : ∀ r ∈ holdingQueryFilter history,
      r.event_type = "MANUAL_BUY_EXECUTION" ∨ r.event_type = "BUY_EXECUTION" := by
    intro r hr
    have hc := List.of_mem_filter hr
    simpa using hc
  refine ⟨hmem, ?_, ?_⟩
  · have hbuy : ∀ r ∈ holdingQueryFilter history,
        jsIncludes r.event_type "BUY" = true := by
      intro r hr
      rcases hmem r hr with h | h <;> rw [h] <;> decide
    have := foldl_buyRows_totalQuantity (holdingQueryFilter history) hbuy ⟨0, 0⟩
    simpa [ledgerFromRows] using this
  · intro r hr
    have hfilter : holdingQueryFilter (history ++ [r]) = holdingQueryFilter history := by
      unfold holdingQueryFilter
      rw [List.filter_append]
      have : List.filter
          (fun x => x.event_type == "MANUAL_BUY_EXECUTION"
            || x.event_type == "BUY_EXECUTION") [r] = [] := by
        rcases hr with h | h <;> simp [List.filter, h]
      rw [this, List.append_nil]
    unfold getHoldingDetailsFromInfluxDB
    rw [hfilter]

/-! ## C6 — nonnegativity, the oversell clamp, and zero reported as no holding -/

/-- One loop step preserves nonnegativity of both totals when the row's
quantity and usdAmount are nonnegative. -/
theorem processTradeRow_nonneg (acc : LedgerAcc) (row : TradeRow)
    (hq : 0 ≤ acc.totalQuantity) (hc : 0 ≤ acc.totalCost)
    (hrq : 0 ≤ row.quantity) (hru : 0 ≤ row.usdAmount) :
    0 ≤ (processTradeRow acc row).totalQuantity ∧
    0 ≤ (processTradeRow acc row).totalCost := by
  unfold processTradeRow
  split
  · exact ⟨add_nonneg hq hrq, add_nonneg hc hru⟩
  · split
    · split
      · dsimp only
        constructor
        · split
          · exact le_refl 0
          · next h => exact not_lt.mp h
        · split
          · exact le_refl 0
          · next h => exact not_lt.mp h
      · exact ⟨hq, hc⟩
    · exact ⟨hq, hc⟩

/-- The loop from nonnegative totals over a history of nonnegative rows ends
with nonnegative totals. -/
theorem foldl_processTradeRow_nonneg (rows : List TradeRow)
    (h : ∀ r ∈ rows, 0 ≤ r.quantity ∧ 0 ≤ r.usdAmount) (acc : LedgerAcc)
    (hq : 0 ≤ acc.totalQuantity) (hc : 0 ≤ acc.totalCost) :
    0 ≤ (rows.foldl processTradeRow acc).totalQuantity ∧
    0 ≤ (rows.foldl processTradeRow acc).totalCost := by
  induction rows generalizing acc with
  | nil => exact ⟨hq, hc⟩
  | cons r rs ih =>
    have hr := h r (by simp)
    have hrs : ∀ x ∈ rs, 0 ≤ x.quantity ∧ 0 ≤ x.usdAmount :=
      fun x hx => h x (by simp [hx])
    have hstep := processTradeRow_nonneg acc r hq hc hr.1 hr.2
    exact ih hrs (processTradeRow acc r) hstep.1 hstep.2

/-- C6: over any event history of nonnegative quantities and amounts the loop
totals stay nonnegative and any reported holding has nonnegative quantity
and average cost (first conjunct); a SELL-kind row whose quantity exceeds
the held quantity clamps both totals to exactly 0 — absorbed, not an error
(second conjunct); and a zero final quantity makes the function report no
holding (third conjunct). -/
theorem ledger_nonneg_clamp_and_zero_is_no_holding :
    (∀ history : List TradeRow,
        (∀ r ∈ history, 0 ≤ r.quantity ∧ 0 ≤ r.usdAmount) →
        0 ≤ (ledgerFromRows history).totalQuantity ∧
        0 ≤ (ledgerFromRows history).totalCost ∧
        ∀ h, getHoldingDetailsFromInfluxDB history = some h →
          0 ≤ h.quantity ∧ 0 ≤ h.purchasePrice) ∧
    (∀ (acc : LedgerAcc) (row : TradeRow),
        0 < acc.totalQuantity → 0 ≤ acc.totalCost →
        jsIncludes row.event_type "BUY" = false →
        jsIncludes row.event_type "SELL" = true →
        acc.totalQuantity < row.quantity →
        processTradeRow acc row = ⟨0, 0⟩) ∧
    (∀ history : List TradeRow,
        (ledgerFromRows (holdingQueryFilter history)).totalQuantity = 0 →
        getHoldingDetailsFromInfluxDB history = none) := by
  have hgate : ∀ (acc : LedgerAcc) (h : HoldingDetails),
      ledgerHoldingOfAcc acc = some h → 0 ≤ h.quantity ∧ 0 ≤ h.purchasePrice := by
    intro acc h hh
    unfold ledgerHoldingOfAcc at hh
    split at hh
    · next hcond =>
      cases hh
      exact ⟨hcond.1.le, div_nonneg hcond.2 hcond.1.le⟩
    · cases hh
  refine ⟨?_, ?_, ?_⟩
  · intro history hhist
    have hfold := foldl_processTradeRow_nonneg history hhist ⟨0, 0⟩
      (le_refl 0) (le_refl 0)
    refine ⟨hfold.1, hfold.2, ?_⟩
    intro h hh
    exact hgate _ h hh
  · intro acc row hq hc hb hs hover
    unfold processTradeRow
    rw [hb, hs]
    simp only [Bool.false_eq_true, if_false, if_true]
    rw [if_pos hq]
    have hne : acc.totalQuantity ≠ 0 := ne_of_gt hq
    have hdiv : 0 ≤ acc.totalCost / acc.totalQuantity := div_nonneg hc hq.le
    have hqneg : acc.totalQuantity - row.quantity < 0 := by linarith
    have hcancel : acc.totalCost / acc.totalQuantity * acc.totalQuantity
        = acc.totalCost := div_mul_cancel₀ acc.totalCost hne
    have hcost : acc.totalCost - row.quantity * (acc.totalCost / acc.totalQuantity) ≤ 0 := by
      have h1 : acc.totalQuantity * (acc.totalCost / acc.totalQuantity)
          ≤ row.quantity * (acc.totalCost / acc.totalQuantity) :=
        mul_le_mul_of_nonneg_right hover.le hdiv
      have h2 : acc.totalQuantity * (acc.totalCost / acc.totalQuantity)
          = acc.totalCost := by
        rw [mul_comm]; exact hcancel
      linarith
    rw [if_pos hqneg]
    rcases lt_or_eq_of_le hcost with hlt | heq
    · rw [if_pos hlt]
    · rw [if_neg (by rw [heq]; exact lt_irrefl 0), heq]
  · intro history hzero
    unfold getHoldingDetailsFromInfluxDB ledgerHoldingOfAcc
    rw [if_neg]
    intro hcond
    rw [hzero] at hcond
    exact lt_irrefl 0 hcond.1

/-- Witness for C6's oversell clamp: totals (1, 100), then a SELL of 10 units
clamp to (0, 0). -/
theorem ledger_nonneg_clamp_witness :
    processTradeRow ⟨1, 100⟩ ⟨"SELL_EXECUTION", 10, 0⟩ = ⟨0, 0⟩ :=
  ledger_nonneg_clamp_and_zero_is_no_holding.2.1 ⟨1, 100⟩ ⟨"SELL_EXECUTION", 10, 0⟩
    (by norm_num) (by norm_num) (by decide) (by decide) (by norm_num)

/-- Witness for C5: appending a SELL_EXECUTION row to a one-buy history does
not change the reconstruction. -/
theorem holding_query_admits_only_buys_witness :
    getHoldingDetailsFromInfluxDB
        ([⟨"BUY_EXECUTION", 1, 100⟩] ++ [⟨"SELL_EXECUTION", 1, 110⟩])
      = getHoldingDetailsFromInfluxDB [⟨"BUY_EXECUTION", 1, 100⟩] :=
  (holding_query_admits_only_buys [⟨"BUY_EXECUTION", 1, 100⟩]).2.2
    ⟨"SELL_EXECUTION", 1, 110⟩ (Or.inl rfl)

/-! ## Indicator lemmas shared by C8 and C9 -/

/-- `slice(-n)` of a list of at least `n ≥ 1` elements has exactly `n`
elements. -/
theorem jsSliceLast_length_of_le (l : List ℚ) (n : ℕ) (h : n ≤ l.length)
    (hn : n ≠ 0) : (jsSliceLast l n).length = n := by
  unfold jsSliceLast
  rw [if_neg hn, List.length_drop]
  omega

/-- `slice(-n)` of a list of exactly `n` elements is the list itself. -/
theorem jsSliceLast_of_length_eq (m : List ℚ) (n : ℕ) (h : m.length = n) :
    jsSliceLast m n = m := by
  unfold jsSliceLast
  split
  · rfl
  · rw [← h, Nat.sub_self, List.drop_zero]

/-- `calculateSMA` on a long-enough series: the trailing-window mean. -/
theorem calculateSMA_eq_of_le (l : List ℚ) (p : ℕ) (h : p ≤ l.length) :
    calculateSMA l p = some ((jsSliceLast l p).sum / p) := by
  unfold calculateSMA
  rw [if_neg (Nat.not_lt.2 h)]

/-- `calculateStandardDeviation` on a long-enough series with positive
period: the square root of the trailing-window population variance, with the
window mean `SMA`. -/
theorem calculateStandardDeviation_eq (l : List ℚ) (p : ℕ) (hp : 0 < p)
    (h : p ≤ l.length) :
    calculateStandardDeviation l p
      = some (Real.sqrt
          ((((jsSliceLast l p).map
              (fun x => (x - (jsSliceLast l p).sum / p) ^ 2)).sum / p : ℚ))) := by
  have hlen : (jsSliceLast l p).length = p := jsSliceLast_length_of_le l p h hp.ne'
  unfold calculateStandardDeviation
  rw [if_neg (Nat.not_lt.2 h), calculateSMA_eq_of_le (jsSliceLast l p) p hlen.ge,
    jsSliceLast_of_length_eq (jsSliceLast l p) p hlen]

/-! ## C9 — the population standard deviation -/

/-- C9: for a positive period `p ≤ len(S)`, `calculateStandardDeviation` is
the square root of the population variance (deviations from the
trailing-window mean, divided by `p`, not `p - 1`) of the last `p` elements
(first conjunct); it is absent on shorter series (second conjunct); and the
spec's two examples evaluate as claimed: 0 for a constant window and
√1.25 = √(5/4) for [1,2,3,4] (third and fourth conjuncts). -/
theorem stddev_population_formula :
    (∀ (S : List ℚ) (p : ℕ), 0 < p → p ≤ S.length →
        calculateStandardDeviation S p
          = some (Real.sqrt (populationVariance (jsSliceLast S p)))) ∧
    (∀ (S : List ℚ) (p : ℕ), S.length < p → calculateStandardDeviation S p = none) ∧
    calculateStandardDeviation [10, 10, 10, 10] 4 = some 0 ∧
    calculateStandardDeviation [1, 2, 3, 4] 4 = some (Real.sqrt (5 / 4)) := by
  have hmain : ∀ (S : List ℚ) (p : ℕ), 0 < p → p ≤ S.length →
      calculateStandardDeviation S p
        = some (Real.sqrt (populationVariance (jsSliceLast S p))) := by
    intro S p hp h
    rw [calculateStandardDeviation_eq S p hp h]
    have hlen : (jsSliceLast S p).length = p := jsSliceLast_length_of_le S p h hp.ne'
    unfold populationVariance listMean
    rw [hlen]
  refine ⟨hmain, ?_, ?_, ?_⟩
  · intro S p h
    unfold calculateStandardDeviation
    rw [if_pos h]
  · rw [hmain [10, 10, 10, 10] 4 (by norm_num) (by norm_num)]
    have hv : populationVariance (jsSliceLast [10, 10, 10, 10] 4) = 0 := by
      norm_num [populationVariance, listMean, jsSliceLast]
    rw [hv]
    norm_num
  · rw [hmain [1, 2, 3, 4] 4 (by norm_num) (by norm_num)]
    have hv : populationVariance (jsSliceLast [1, 2, 3, 4] 4) = 5 / 4 := by
      norm_num [populationVariance, listMean, jsSliceLast]
    rw [hv]
    norm_num

/-- Witness for C9's universally quantified part at S = [1,2,3,4], p = 4. -/
theorem stddev_population_formula_witness :
    calculateStandardDeviation [1, 2, 3, 4] 4
      = some (Real.sqrt (populationVariance (jsSliceLast [1, 2, 3, 4] 4))) :=
  stddev_population_formula.1 [1, 2, 3, 4] 4 (by norm_num) (by norm_num)

/-! ## C8 — the Bollinger band relations -/

/-- C8: for positive `p ≤ len(S)` the band object is fully populated with
middle = SMA and upper/lower = middle ± stddev·k, so upper − lower equals
2·k·stddev (first conjunct); structurally, a returned object with an absent
middle band has all three bands absent (second conjunct), and one with a
middle band but an absent upper band also has an absent lower band (third
conjunct). -/
theorem bollinger_band_relations :
    (∀ (S : List ℚ) (p : ℕ) (k : ℚ), 0 < p → p ≤ S.length →
        ∃ (m : ℚ) (sd : ℝ), calculateSMA S p = some m ∧
          calculateStandardDeviation S p = some sd ∧
          calculateBollingerBands S p k
            = some ⟨some m, some ((m : ℝ) + sd * (k : ℝ)),
                    some ((m : ℝ) - sd * (k : ℝ))⟩ ∧
          ((m : ℝ) + sd * (k : ℝ)) - ((m : ℝ) - sd * (k : ℝ))
            = 2 * (k : ℝ) * sd) ∧
    (∀ (S : List ℚ) (p : ℕ) (k : ℚ) (bb : BollingerBands),
        calculateBollingerBands S p k = some bb → bb.middleBand = none →
        bb.upperBand = none ∧ bb.lowerBand = none) ∧
    (∀ (S : List ℚ) (p : ℕ) (k : ℚ) (bb : BollingerBands) (m : ℚ),
        calculateBollingerBands S p k = some bb → bb.middleBand = some m →
        bb.upperBand = none → bb.lowerBand = none) := by
  refine ⟨?_, ?_, ?_⟩
  · intro S p k hp h
    have hsma := calculateSMA_eq_of_le S p h
    have hsd := calculateStandardDeviation_eq S p hp h
    refine ⟨_, _, hsma, hsd, ?_, by ring⟩
    unfold calculateBollingerBands
    rw [if_neg (Nat.not_lt.2 h), hsma, hsd]
  · intro S p k bb hbb hmid
    unfold calculateBollingerBands at hbb
    split at hbb
    · cases hbb
    · split at hbb
      · cases hbb
        exact ⟨rfl, rfl⟩
      · split at hbb
        · cases hbb
          cases hmid
        · cases hbb
          cases hmid
  · intro S p k bb m hbb hmid hup
    unfold calculateBollingerBands at hbb
    split at hbb
    · cases hbb
    · split at hbb
      · cases hbb
        cases hmid
      · split at hbb
        · cases hbb
          rfl
        · cases hbb
          cases hup

/-- Witness for C8's universally quantified part at S = [1,2,3,4], p = 2,
k = 2. -/
theorem bollinger_band_relations_witness :
    ∃ (m : ℚ) (sd : ℝ), calculateSMA [1, 2, 3, 4] 2 = some m ∧
      calculateStandardDeviation [1, 2, 3, 4] 2 = some sd ∧
      calculateBollingerBands [1, 2, 3, 4] 2 2
        = some ⟨some m, some ((m : ℝ) + sd * ((2 : ℚ) : ℝ)),
                some ((m : ℝ) - sd * ((2 : ℚ) : ℝ))⟩ ∧
      ((m : ℝ) + sd * ((2 : ℚ) : ℝ)) - ((m : ℝ) - sd * ((2 : ℚ) : ℝ))
        = 2 * ((2 : ℚ) : ℝ) * sd :=
  bollinger_band_relations.1 [1, 2, 3, 4] 2 2 (by norm_num) (by norm_num)

/-! ## C1 — the cooldown gate -/

/-- C1 (amended): when the cooldown is active at the start of a cycle and at
least one ticker is watched, the first buy-loop iteration hits the cooldown
gate and returns: the cycle submits no order and leaves the trade timestamp
unchanged.  (The nonempty-watchlist hypothesis keeps the statement within
the model's meaningful domain: with an empty watchlist the source populates
no prices at all, so the sell pass reads NaN and no rule fires — a path
outside the rational embedding.  The gate itself lives only inside the buy
loop: see the counterexample for the ungated sell pass.) -/
theorem cooldown_blocks_cycle_when_watchlist_nonempty
    (cfg : VariantB.Config) (env : VariantB.Env) (st : VariantB.EngineState)
    (hcool : VariantB.isCooldown cfg.trade_cooldown_minutes st.lastTradeTimestamp
        cfg.main_loop_minutes env.now = true)
    (hne : cfg.tickers_to_watch ≠ []) :
    VariantB.runCycle cfg env st = .ok ([], st.lastTradeTimestamp) := by
  obtain ⟨t, ts, hts⟩ := List.exists_cons_of_ne_nil hne
  unfold VariantB.runCycle
  rw [hts]
  simp [VariantB.runBuyPass, hcool]

/-- Witness for C1's amended theorem: a cycle starting 1 ms into a 60-minute
cooldown with ticker ETH-USD watched submits nothing. -/
theorem cooldown_blocks_cycle_witness :
    VariantB.runCycle c1wConfig c1Env c1State
      = .ok ([], c1State.lastTradeTimestamp) :=
  cooldown_blocks_cycle_when_watchlist_nonempty c1wConfig c1Env c1State
    (by norm_num [VariantB.isCooldown, c1wConfig, c1Env, c1State, decide_eq_true_eq])
    (by simp [c1wConfig])

/-- Counterexample to C1 as stated: the cooldown gate exists only in the buy
loop, so a sell that arms the cooldown mid-cycle does not stop the sell
pass's remaining iterations.  In this fully watched, reachable scenario
(both held tickers are on the watchlist, so the refresh step populates
both prices) the cooldown is inactive when the cycle starts (first
conjunct); the cycle submits the ETH-USD sell — arming the cooldown, the
final trade timestamp is `now` — and then a second sell for the watched
ticker SOL-USD (second conjunct), although from the instant of arming the
cooldown is active: `now - now = 0` is less than the 60-minute duration
(third conjunct).  The fourth conjunct isolates the step: the sell-pass
continuation the cycle reaches after the ETH sell — remaining holdings
`[solAsset]`, lastTradeTimestamp already `now` — still submits the SOL-USD
sell, i.e. a sell action for a watched ticker is initiated while the
cooldown is active. -/
theorem cooldown_armed_mid_cycle_sell_counterexample :
    VariantB.isCooldown cxConfig.trade_cooldown_minutes cxState.lastTradeTimestamp
        cxConfig.main_loop_minutes cxEnv.now = false ∧
    VariantB.runCycle cxConfig cxEnv cxState
      = .ok ([⟨"ETH-USD", "SELL", 1, 110⟩, ⟨"SOL-USD", "SELL", 1, 110⟩],
             10000000000) ∧
    VariantB.isCooldown cxConfig.trade_cooldown_minutes cxEnv.now
        cxConfig.main_loop_minutes cxEnv.now = true ∧
    VariantB.runSellPass cxConfig cxEnv [solAsset] cxEnv.now 1
      = .ok ([⟨"SOL-USD", "SELL", 1, 110⟩], 10000000000, 2) := by
  have hfireEth : (110 : ℚ) ≥ 100 * (1 + 5 / 100) := by norm_num
  have hfireSol : (110 : ℚ) ≥ 10 * (1 + 5 / 100) := by norm_num
  have hne1 : ("ETH" : String) ≠ "USD" := by decide
  have hne2 : ("SOL" : String) ≠ "USD" := by decide
  have hbe1 : (("ETH" : String) == "USD") = false := by decide
  have hbe2 : (("SOL" : String) == "USD") = false := by decide
  have happ1 : ("ETH" : String) ++ "-USD" = "ETH-USD" := by decide
  have happ2 : ("SOL" : String) ++ "-USD" = "SOL-USD" := by decide
  refine ⟨?_, ?_, ?_, ?_⟩
  · norm_num [VariantB.isCooldown, cxConfig, cxState, cxEnv, decide_eq_true_eq]
  · norm_num [VariantB.runCycle, VariantB.runBuyPass, VariantB.runSellPass,
      VariantB.runRuleLoop, VariantB.isCooldown, VariantB.evaluateRuleCondition,
      cxConfig, cxEnv, cxState, ethAsset, solAsset, profitRule5, history20,
      eq_true hfireEth, eq_true hfireSol, hne1, hne2, hbe1, hbe2, happ1, happ2]
  · norm_num [VariantB.isCooldown, cxConfig, cxEnv, decide_eq_true_eq]
  · norm_num [VariantB.runSellPass, VariantB.runRuleLoop,
      VariantB.evaluateRuleCondition, cxConfig, cxEnv, solAsset, profitRule5,
      history20, eq_true hfireSol, hne2, happ2]

/-! ## C3 — first-match rule evaluation per ticker and direction -/

/-- C3 (amended): when every order submission is accepted, the per-ticker
rule loop realises first-match semantics: rules are evaluated in configured
order up to and including the first firing rule, later rules are not
evaluated, and at most one order is submitted for that ticker and
direction. -/
theorem rule_loop_first_accepted_match
    (evalRule : Rule → Except String Bool) (fires : Rule → Bool)
    (order : VariantB.Order) (venue : ℕ → Bool) (rules : List Rule) (n : ℕ)
    (heval : ∀ r ∈ rules, evalRule r = .ok (fires r))
    (hv : ∀ m, venue m = true) :
    ∃ res : VariantB.RuleLoopResult,
      VariantB.runRuleLoop evalRule order venue rules n = .ok res ∧
      res.evaluated = (firstMatchSpec fires order rules).1 ∧
      res.submitted = (firstMatchSpec fires order rules).2 ∧
      res.submitted.length ≤ 1 := by
  induction rules generalizing n with
  | nil => exact ⟨⟨[], [], n, false⟩, rfl, rfl, rfl, by simp⟩
  | cons r rs ih =>
    have hr : evalRule r = .ok (fires r) := heval r (by simp)
    have hrs : ∀ x ∈ rs, evalRule x = .ok (fires x) :=
      fun x hx => heval x (by simp [hx])
    cases hfr : fires r with
    | true =>
      refine ⟨⟨[r.id], [order], n + 1, true⟩, ?_, ?_, ?_, by simp⟩
      · simp only [VariantB.runRuleLoop, hr, hfr, hv n, if_true]
      · simp [firstMatchSpec, hfr]
      · simp [firstMatchSpec, hfr]
    | false =>
      obtain ⟨res, hrun, he, hs, hl⟩ := ih n hrs
      refine ⟨⟨r.id :: res.evaluated, res.submitted, res.nextIndex, res.traded⟩,
        ?_, ?_, ?_, by simpa using hl⟩
      · simp only [VariantB.runRuleLoop, hr, hfr, hrun]
      · simp [firstMatchSpec, hfr, he]
      · simp [firstMatchSpec, hfr, hs]

/-- Witness for C3's amended theorem: two profit-target sell rules that both
fire on the concrete snapshot, with an all-accepting venue — only the first
is evaluated and one order is submitted. -/
theorem rule_loop_first_match_witness :
    ∃ res : VariantB.RuleLoopResult,
      VariantB.runRuleLoop
          (fun rule => VariantB.evaluateRuleCondition "ETH-USD" rule 110
            history20 (some ethAsset))
          c3Order (fun _ => true) [profitRule5, profitRule1] 0 = .ok res ∧
      res.evaluated
        = (firstMatchSpec (fun _ => true) c3Order [profitRule5, profitRule1]).1 ∧
      res.submitted
        = (firstMatchSpec (fun _ => true) c3Order [profitRule5, profitRule1]).2 ∧
      res.submitted.length ≤ 1 :=
  rule_loop_first_accepted_match
    (fun rule => VariantB.evaluateRuleCondition "ETH-USD" rule 110
      history20 (some ethAsset))
    (fun _ => true) c3Order (fun _ => true) [profitRule5, profitRule1] 0
    (by
      intro r hr
      have h5 : (110 : ℚ) ≥ 100 * (1 + 5 / 100) := by norm_num
      have h1 : (110 : ℚ) ≥ 100 * (1 + 1 / 100) := by norm_num
      simp only [List.mem_cons, List.not_mem_nil, or_false] at hr
      rcases hr with rfl | rfl
      · norm_num [VariantB.evaluateRuleCondition, profitRule5, ethAsset,
          eq_true h5]
      · norm_num [VariantB.evaluateRuleCondition, profitRule1, ethAsset,
          eq_true h1])
    (fun _ => rfl)

/-- Counterexample to C3 as stated: when the venue rejects the first firing
rule's order, the loop moves on — the second sell rule is evaluated in the
same cycle and a second order is submitted for the same ticker and
direction.  Here both rules fire, the first submission is rejected and the
second accepted: two rules are evaluated and two orders submitted. -/
theorem rule_loop_rejected_order_continues_counterexample :
    VariantB.runRuleLoop
        (fun rule => VariantB.evaluateRuleCondition "ETH-USD" rule 110
          history20 (some ethAsset))
        c3Order c3Venue [profitRule5, profitRule1] 0
      = .ok ⟨["sell_on_5pct_profit", "sell_on_1pct_profit"],
             [c3Order, c3Order], 2, true⟩ := by
  have h5 : (110 : ℚ) ≥ 100 * (1 + 5 / 100) := by norm_num
  have h1 : (110 : ℚ) ≥ 100 * (1 + 1 / 100) := by norm_num
  norm_num [VariantB.runRuleLoop, VariantB.evaluateRuleCondition, c3Venue,
    profitRule5, profitRule1, ethAsset, eq_true h5, eq_true h1]

/-! ## C7 — buy order sizing -/

/-- Every order a rule loop submits is the single order value built for its
ticker before the loop. -/
theorem runRuleLoop_submitted_mem (evalRule : Rule → Except String Bool)
    (order : VariantB.Order) (venue : ℕ → Bool) :
    ∀ (rules : List Rule) (n : ℕ) (res : VariantB.RuleLoopResult),
      VariantB.runRuleLoop evalRule order venue rules n = .ok res →
      ∀ o ∈ res.submitted, o = order := by
  intro rules
  induction rules with
  | nil =>
    intro n res h o ho
    injection h with h
    subst h
    simp at ho
  | cons r rs ih =>
    intro n res h o ho
    simp only [VariantB.runRuleLoop] at h
    split at h
    · cases h
    · split at h
      · cases h
      · next r2 hrec =>
        injection h with h
        subst h
        exact ih n r2 hrec o (by simpa using ho)
    · split at h
      · injection h with h
        subst h
        simpa using ho
      · split at h
        · cases h
        · next r2 hrec =>
          injection h with h
          subst h
          rcases (by simpa using ho : o = order ∨ o ∈ r2.submitted) with rfl | ho2
          · rfl
          · exact ih _ r2 hrec o ho2

/-- C7 (amended): every order the buy pass submits is a BUY limit order at
the ticker's current price whose quantity is the per-trade USD allocation
divided by that price, rounded by `toFixed` to 8 decimal places (6 for
XRP-USD). -/
theorem buy_order_sizing_toFixed (cfg : VariantB.Config) (env : VariantB.Env)
    (usdBalance : ℚ) :
    ∀ (tickers : List String) (last : ℚ) (n : ℕ)
      (out : List VariantB.Order × ℚ × ℕ × Bool),
      VariantB.runBuyPass cfg env usdBalance tickers last n = .ok out →
      ∀ o ∈ out.1, o.side = "BUY" ∧
        o.quantity = jsToFixed (cfg.trade_allocation_usd / env.marketPrices o.ticker)
            (if o.ticker = "XRP-USD" then 6 else 8) ∧
        o.limitPrice = env.marketPrices o.ticker := by
  intro tickers
  induction tickers with
  | nil =>
    intro last n out h o ho
    injection h with h
    subst h
    simp at ho
  | cons t ts ih =>
    intro last n out h o ho
    simp only [VariantB.runBuyPass] at h
    split at h
    · injection h with h
      subst h
      simp at ho
    · split at h
      · split at h
        · exact ih _ _ _ h o ho
        · split at h
          · cases h
          · next r hrl =>
            split at h
            · cases h
            · next out2 hrec =>
              injection h with h
              subst h
              rcases List.mem_append.1 (by simpa using ho) with h1 | h2
              · have hoo := runRuleLoop_submitted_mem _ _ _ _ _ _ hrl o h1
                subst hoo
                exact ⟨rfl, rfl, rfl⟩
              · exact ih _ _ _ hrec o h2
      · exact ih _ _ _ h o ho

/-- Witness for C7's amended theorem: in the sizing scenario the one
submitted order is a BUY for `toFixed(10 / 90, 8)` at limit price 90. -/
theorem buy_order_sizing_witness :
    c7Order.side = "BUY" ∧
    c7Order.quantity
      = jsToFixed (c7Config.trade_allocation_usd / c7Env.marketPrices c7Order.ticker)
          (if c7Order.ticker = "XRP-USD" then 6 else 8) ∧
    c7Order.limitPrice = c7Env.marketPrices c7Order.ticker := by
  have hBX : ("BTC-USD" : String) ≠ "XRP-USD" := by decide
  have hrun : VariantB.runBuyPass c7Config c7Env 1000 ["BTC-USD"] 0 0
      = .ok ([c7Order], 10000000000, 1, false) := by
    norm_num [VariantB.runBuyPass, VariantB.runRuleLoop, VariantB.isCooldown,
      VariantB.evaluateRuleCondition, calculateROC, jsSliceLast, jsToFixed,
      c7Config, c7Env, c7Order, rocBuyRule, history20at90, round_eq, hBX]
  exact buy_order_sizing_toFixed c7Config c7Env 1000 ["BTC-USD"] 0 0
    ([c7Order], 10000000000, 1, false) hrun c7Order (by simp)

/-- Counterexample to C7 as stated: the submitted quantity is
`toFixed(10 / 90, 8) = 0.11111111`, which is not equal to the exact quotient
`10 / 90`: the full cycle submits exactly that rounded order (first
conjunct) and the rounded quantity differs from allocation / price (second
conjunct). -/
theorem buy_order_exact_quotient_counterexample :
    VariantB.runCycle c7Config c7Env c7State = .ok ([c7Order], 10000000000) ∧
    c7Order.quantity ≠ c7Config.trade_allocation_usd / c7Env.marketPrices "BTC-USD" := by
  constructor
  · have hBX : ("BTC-USD" : String) ≠ "XRP-USD" := by decide
    norm_num [VariantB.runCycle, VariantB.runBuyPass, VariantB.runSellPass,
      VariantB.runRuleLoop, VariantB.isCooldown, VariantB.evaluateRuleCondition,
      calculateROC, jsSliceLast, jsToFixed, c7Config, c7Env, c7State, c7Order,
      rocBuyRule, usdAsset, history20at90, round_eq, hBX]
  · norm_num [c7Order, c7Config, c7Env]

end QuantTrader
